import Mathlib

/-!
Verification of the TADASHI-MD message pipeline (src/dexter.js).

The development shallowly embeds the pieces of `dexter.js` that the
checked properties are about:

* the `messages` table and the SQL issued against it (plain `INSERT`,
  the `markDeleted` style `UPDATE`, the transactional wipe of
  `handleDelete(clear)`),
* the in-memory `mediaCache` (a JS `Map` from message id to a media
  entry, with the inline eviction pass run on every media insert),
* the wrapper unwrapping of the `messages.upsert` handler,
* the reply-rule matching loop and its response dispatch,
* the JS `String.prototype.replace` placeholder substitution,
* the serialized `{caption, mimetype}` envelope and the deleted-message
  recovery branch of `handleDeletedMessage`,
* the status-trigger / rule / command routing of the handler.

Every definition mirrors the JavaScript source; definitions that instead
follow the specification's wording (used to compare code behaviour
against the spec) say so in their doc comment.
-/

namespace TadashiMD

/-! ## Message store (the `messages` table)

`initializeDatabase` creates `messages` with a surrogate `SERIAL`
primary key and **no uniqueness constraint** on `message_id`.  A row is
modelled by `MessageRow`; the table by a list of rows in insertion
order (insertion order stands in for the ascending `SERIAL` id). -/

structure MessageRow where
  messageId : String
  senderJid : String
  remoteJid : String
  messageText : String
  messageType : String
  imageUrl : Option String
  autoReplySent : Bool
  isDeleted : Bool
  deletedAt : Option Nat
  deletedBy : Option String
deriving Repr, DecidableEq

/-- The `INSERT INTO messages ... VALUES ...` of the `messages.upsert`
handler: an unconditional insert appending one row (the table has no
unique key on `message_id`, so the insert never conflicts). -/
def insertMessage (db : List MessageRow) (r : MessageRow) : List MessageRow :=
  db ++ [r]

/-- Number of rows of the table carrying a given `message_id`. -/
def countWithId (db : List MessageRow) (id : String) : Nat :=
  (db.filter (fun r => r.messageId = id)).length

/-- The read `SELECT * FROM messages WHERE message_id = $1` followed by
`rows[0]`, as `handleDeletedMessage` reads a record back. -/
def readById (db : List MessageRow) (id : String) : Option MessageRow :=
  (db.filter (fun r => r.messageId = id)).head?

/-- The row transformation of the `UPDATE messages SET is_deleted = TRUE,
deleted_at = NOW(), deleted_by = $1 WHERE message_id = $2` statement of
`handleDeletedMessage`, applied to one row. -/
def markDeletedRow (id deleter : String) (now : Nat) (r : MessageRow) : MessageRow :=
  if r.messageId = id then
    { r with isDeleted := true, deletedAt := some now, deletedBy := some deleter }
  else r

/-- The `UPDATE ... WHERE message_id = $2` statement itself: every row
whose `message_id` matches is updated, other rows are untouched; an
unknown id updates zero rows and is not an error. -/
def markDeleted (db : List MessageRow) (id deleter : String) (now : Nat) : List MessageRow :=
  db.map (markDeletedRow id deleter now)

/-! ## Transactional wipe (`handleDelete(clear = true)`)

`handleDelete` runs `BEGIN; DELETE FROM messages; COMMIT;` on a pooled
client and issues `ROLLBACK` when the delete fails.  The surrounding
transaction semantics are embedded as a committed state plus an
optional open-transaction buffer. -/

structure PgDb where
  committed : List MessageRow
  txnBuffer : Option (List MessageRow)
deriving Repr, DecidableEq

/-- Statement `BEGIN`: open a transaction buffer seeded with the committed rows. -/
def beginTxn (s : PgDb) : PgDb :=
  { s with txnBuffer := some s.committed }

/-- Statement `DELETE FROM messages` executed inside the open transaction. -/
def deleteAllStmt (s : PgDb) : PgDb :=
  { s with txnBuffer := s.txnBuffer.map (fun _ => []) }

/-- Statement `COMMIT`: publish the transaction buffer as the committed state. -/
def commitTxn (s : PgDb) : PgDb :=
  match s.txnBuffer with
  | some t => { committed := t, txnBuffer := none }
  | none => s

/-- Statement `ROLLBACK`: discard the transaction buffer. -/
def rollbackTxn (s : PgDb) : PgDb :=
  { s with txnBuffer := none }

/-- The wipe `handleDelete(clear = true)`: begin a transaction, attempt the
delete (`deleteFails` injects a mid-transaction statement failure, in
which case the `catch` block rolls back), otherwise commit. -/
def handleDeleteClear (s : PgDb) (deleteFails : Bool) : PgDb :=
  let s1 := beginTxn s
  if deleteFails then rollbackTxn s1
  else commitTxn (deleteAllStmt s1)

/-! ## Ephemeral media cache (`mediaCache`)

`mediaCache` is a JS `Map` keyed by message id.  A `Map` keeps one
entry per key, updating in place on re-`set` and appending new keys; it
is modelled as an association list.  The media branch of the
`messages.upsert` handler `set`s the new entry (with
`timestamp: Date.now()`) and then runs the inline eviction loop that
deletes every entry with `now - timestamp > 60 * 60 * 1000`. -/

/-- The fixed TTL of `mediaCache`, `60 * 60 * 1000` milliseconds. -/
def ttlMs : Nat := 60 * 60 * 1000

structure CacheEntry where
  mediaType : String
  buffer : List Nat
  caption : String
  mimetype : String
  imageUrl : Option String
  timestamp : Nat
deriving Repr, DecidableEq

abbrev MediaCache : Type := List (String × CacheEntry)

/-- JS `Map.prototype.get`. -/
def mapGet : MediaCache → String → Option CacheEntry
  | [], _ => none
  | p :: rest, k => if p.1 = k then some p.2 else mapGet rest k

/-- JS `Map.prototype.set`: replace the value in place when the key is
present, append a fresh pair otherwise. -/
def mapSet : MediaCache → String → CacheEntry → MediaCache
  | [], k, v => [(k, v)]
  | p :: rest, k, v => if p.1 = k then (k, v) :: rest else p :: mapSet rest k v

/-- The inline eviction pass of the handler: delete every entry whose
age at time `now` strictly exceeds the TTL. -/
def sweepCache (c : MediaCache) (now : Nat) : MediaCache :=
  c.filter (fun p => !(decide (ttlMs < now - p.2.timestamp)))

/-- The media branch of the handler after a successful download:
`mediaCache.set(mek.key.id, {...timestamp: Date.now()})` followed by
the eviction loop at the same `now`. -/
def cachePut (c : MediaCache) (id mediaType : String) (buffer : List Nat)
    (caption mimetype : String) (imageUrl : Option String) (now : Nat) : MediaCache :=
  sweepCache (mapSet c id
    { mediaType := mediaType, buffer := buffer, caption := caption,
      mimetype := mimetype, imageUrl := imageUrl, timestamp := now }) now

/-! ## Content normalizer (wrapper unwrapping)

The handler reads `messageType = getContentType(mek.message)` and then
runs two sequential `if` statements: one unwrapping an
`ephemeralMessage` wrapper, one unwrapping a `viewOnceMessageV2`
wrapper, each substituting the inner message and recomputing the type. -/

inductive WAMessageContent where
  | conversation (text : String)
  | extendedText (text : String)
  | imageMessage (caption : Option String) (mimetype : String)
  | videoMessage (caption : Option String) (mimetype : String)
  | audioMessage (caption : Option String) (mimetype : String)
  | ephemeralMessage (inner : WAMessageContent)
  | viewOnceMessageV2 (inner : WAMessageContent)
  | otherContent (payload : String)
deriving Repr, DecidableEq

/-- Baileys' `getContentType`: the key naming the populated content
field of the message object. -/
def getContentType : WAMessageContent → String
  | .conversation _ => "conversation"
  | .extendedText _ => "extendedTextMessage"
  | .imageMessage _ _ => "imageMessage"
  | .videoMessage _ _ => "videoMessage"
  | .audioMessage _ _ => "audioMessage"
  | .ephemeralMessage _ => "ephemeralMessage"
  | .viewOnceMessageV2 _ => "viewOnceMessageV2"
  | .otherContent _ => "otherMessage"

/-- Whether a content-kind tag names one of the two wrappers. -/
def isWrapperKind (k : String) : Bool :=
  k = "ephemeralMessage" || k = "viewOnceMessageV2"

/-- The handler's unwrapping: first `if (messageType === 'ephemeralMessage')`
substitutes the inner message, then `if (messageType === 'viewOnceMessageV2')`
does the same — two sequential checks, not a loop. -/
def unwrapContent (m0 : WAMessageContent) : WAMessageContent :=
  let m1 := match m0 with
    | .ephemeralMessage inner => inner
    | m => m
  match m1 with
  | .viewOnceMessageV2 inner => inner
  | m => m

/-- Modelled from the spec's wording ("repeating until a non-wrapper
kind is reached"): fully unwrap any nesting of the two wrappers.  Used
only to compare the code's `unwrapContent` against the specified
behaviour. -/
def specFullUnwrap : WAMessageContent → WAMessageContent
  | .ephemeralMessage inner => specFullUnwrap inner
  | .viewOnceMessageV2 inner => specFullUnwrap inner
  | m => m

/-! ## Reply rules and the matching loop

`replyRules.rules` items carry an optional `trigger`, an optional
regex source `pattern`, and an ordered `response` list.  The JS regex
engine is abstracted as a `compile` oracle: `compile p = some tester`
models `new RegExp(p, 'i')` succeeding with `tester` as its `.test`,
`compile p = none` models the constructor throwing. -/

structure ResponseItem where
  rtype : String
  content : Option String
  caption : Option String
  url : Option String
  delayMs : Option Nat
deriving Repr, DecidableEq

structure ReplyRule where
  trigger : Option String
  pattern : Option String
  response : List ResponseItem
deriving Repr, DecidableEq

/-- JS truthiness of an optional string field: absent and `""` are
falsy. -/
def truthyStr : Option String → Bool
  | some s => !(s = "")
  | none => false

/-- Lowercasing as used by the substring fallback
(`messageText.toLowerCase()`). -/
def lowerStr (s : String) : String :=
  ⟨s.toList.map Char.toLower⟩

/-- Prefix test on character lists (`startsWithList pat l` holds when
`l` begins with `pat`). -/
def startsWithList : List Char → List Char → Bool
  | [], _ => true
  | _ :: _, [] => false
  | p :: ps, c :: cs => p = c && startsWithList ps cs

/-- JS `String.prototype.startsWith` on strings. -/
def strStartsWith (s pre : String) : Bool :=
  startsWithList pre.toList s.toList

/-- First occurrence of `pat` inside `s`: `some (before, after)` splits
`s` as `before ++ pat ++ after` at the leftmost match. -/
def findSplit (pat : List Char) : List Char → Option (List Char × List Char)
  | [] => if startsWithList pat [] then some ([], []) else none
  | c :: rest =>
      if startsWithList pat (c :: rest) then some ([], (c :: rest).drop pat.length)
      else (findSplit pat rest).map (fun p => (c :: p.1, p.2))

/-- JS `String.prototype.includes`: substring containment. -/
def jsIncludes (hay needle : String) : Bool :=
  (findSplit needle.toList hay.toList).isSome

/-- The fallback branch `rule.trigger && messageText.toLowerCase()
.includes(rule.trigger.toLowerCase())`. -/
def triggerFallback (rule : ReplyRule) (messageText : String) : Bool :=
  match rule.trigger with
  | some t => if t = "" then false else jsIncludes (lowerStr messageText) (lowerStr t)
  | none => false

/-- One iteration's `isMatch` computation: `if (rule.pattern)` compile
the pattern; on success the regex test alone decides, on a constructor
throw the `catch` block falls back to the substring test; with no
(truthy) pattern the substring test is used directly. -/
def ruleIsMatch (compile : String → Option (String → Bool))
    (rule : ReplyRule) (messageText : String) : Bool :=
  if truthyStr rule.pattern then
    match compile (rule.pattern.getD "") with
    | some tester => tester messageText
    | none => triggerFallback rule messageText
  else triggerFallback rule messageText

/-- The first rule of the list matching the text, if any. -/
def firstMatchingRule (compile : String → Option (String → Bool))
    (rules : List ReplyRule) (messageText : String) : Option ReplyRule :=
  rules.find? (fun r => ruleIsMatch compile r messageText)

/-- Observable store/transport actions of the rule-dispatch loop, in
program order. -/
inductive DispatchEvent where
  | setAutoReplyFlag (messageId : String)
  | sendItem (item : ResponseItem)
deriving Repr, DecidableEq

/-- Is a dispatch event the `auto_reply_sent` update? -/
def isFlagEvent : DispatchEvent → Bool
  | .setAutoReplyFlag _ => true
  | .sendItem _ => false

/-- The `for (const rule of replyRules.rules)` loop: on the first rule
whose `isMatch` is true, issue the `UPDATE ... SET auto_reply_sent =
TRUE` and then send the rule's response items in order, and `break`;
otherwise continue with the next rule. -/
def dispatchForRules (compile : String → Option (String → Bool))
    (rules : List ReplyRule) (messageId messageText : String) : List DispatchEvent :=
  match rules with
  | [] => []
  | r :: rest =>
      if ruleIsMatch compile r messageText then
        DispatchEvent.setAutoReplyFlag messageId :: r.response.map DispatchEvent.sendItem
      else dispatchForRules compile rest messageId messageText

/-! ## Pipeline routing (status triggers, rules, commands)

The `messages.upsert` handler checks, in order: exact membership of
`messageText` in `statusTriggers` (the status-save path, which
`return`s), then the rule-matching eligibility filter, then the
`'.'`-command dispatch.  The latter two are mutually exclusive because
the rule filter requires the text not to start with `'.'`. -/

/-- The default `statusTriggers` list of `dexter.js`. -/
def defaultStatusTriggers : List String :=
  ["send", "Send", "Seve", "Ewpm", "ewpn", "Dapan", "dapan",
   "oni", "Oni", "save", "Save", "ewanna", "Ewanna", "ewam",
   "Ewam", "sv", "Sv", "දාන්න", "එවම්න"]

inductive PipelineRoute where
  | statusSave
  | rulePhase
  | commandPhase
  | noRoute
deriving Repr, DecidableEq

/-- Which phase of the handler a message reaches:
`if (messageText && statusTriggers.includes(messageText))` enters the
status-save path (and returns); otherwise the rule loop runs when the
eligibility filter passes; otherwise the command table runs when the
text starts with `'.'`. -/
def pipelineRoute (messageText : String) (triggers : List String)
    (fromMe : Bool) (senderJid remoteJid restricted : String) : PipelineRoute :=
  if !(messageText = "") && triggers.contains messageText then
    PipelineRoute.statusSave
  else if !(messageText = "") && !(strStartsWith messageText ".") && !fromMe
      && !(senderJid = restricted) && !(remoteJid = restricted) then
    PipelineRoute.rulePhase
  else if !(messageText = "") && strStartsWith messageText "." then
    PipelineRoute.commandPhase
  else
    PipelineRoute.noRoute

/-! ## Template substitution (`String.prototype.replace`)

The dispatcher rewrites `content`, `caption` and `url` with
`.replace('$\x7bpushname\x7d', pushName)` etc.  With a string search
value, JS replaces only the first occurrence, but the replacement
string is still processed for the dollar patterns of `GetSubstitution`:
`$$` (a dollar), `$&` (the matched substring), a dollar followed by a
backquote (the portion before the match) and `$` followed by an
apostrophe (the portion after the match); any other dollar sequence is
kept literally. -/

/-- The backquote character. -/
def backquoteC : Char := Char.ofNat 96

/-- The apostrophe character. -/
def apostC : Char := Char.ofNat 39

/-- ECMAScript `GetSubstitution` restricted to a string search value
(no capture groups): expand the dollar patterns of the replacement
string `rep`, where `m` is the matched substring, `bef` the portion of
the subject before the match and `aft` the portion after it. -/
def getSubstitution (m bef aft : List Char) : List Char → List Char
  | [] => []
  | [c] => [c]
  | c :: d :: rest2 =>
      if c = '$' then
        if d = '$' then '$' :: getSubstitution m bef aft rest2
        else if d = '&' then m ++ getSubstitution m bef aft rest2
        else if d = backquoteC then bef ++ getSubstitution m bef aft rest2
        else if d = apostC then aft ++ getSubstitution m bef aft rest2
        else c :: getSubstitution m bef aft (d :: rest2)
      else c :: getSubstitution m bef aft (d :: rest2)

/-- JS `s.replace(pat, rep)` with both arguments strings: replace the
first occurrence of `pat`, running the replacement through
`getSubstitution`; no occurrence returns `s` unchanged. -/
def jsReplace (s pat rep : String) : String :=
  match findSplit pat.toList s.toList with
  | none => s
  | some (bef, aft) => ⟨bef ++ getSubstitution pat.toList bef aft rep.toList ++ aft⟩

/-- Modelled from the spec's wording ("literal replace, not regex"):
replace the first occurrence of `pat` by `rep` verbatim.  Used only to
compare the code's `jsReplace` against the specified behaviour. -/
def literalReplace (s pat rep : String) : String :=
  match findSplit pat.toList s.toList with
  | none => s
  | some (bef, aft) => ⟨bef ++ rep.toList ++ aft⟩

/-- The `pushname` placeholder. -/
def phPushname : String := "${pushname}"

/-- The `userid` placeholder. -/
def phUserid : String := "${userid}"

/-- The `senderdpurl` placeholder. -/
def phSenderdpurl : String := "${senderdpurl}"

/-- The chained substitution applied by the dispatcher to a `content`,
`caption` or `url` string. -/
def substituteTemplates (s pushName userId senderDpUrl : String) : String :=
  jsReplace (jsReplace (jsReplace s phPushname pushName) phUserid userId)
    phSenderdpurl senderDpUrl

/-- Modelled from the spec's wording: the same chain built from the
verbatim `literalReplace`. -/
def literalSubstituteTemplates (s pushName userId senderDpUrl : String) : String :=
  literalReplace (literalReplace (literalReplace s phPushname pushName) phUserid userId)
    phSenderdpurl senderDpUrl

/-- Whether `s` contains an occurrence of `pat`. -/
def containsSub (s pat : String) : Bool :=
  (findSplit pat.toList s.toList).isSome

/-- No character of `s` is a dollar sign. -/
def noDollar (s : String) : Bool :=
  s.toList.all (fun c => !(c = '$'))

/-! ## The serialized media envelope and deletion recovery

For an image/video/audio message the handler stores
`JSON.stringify({caption, mimetype})` as the message text, and
`handleDeletedMessage` later recovers the caption with `JSON.parse`.
The serializer and the (restricted, `\u`-free) JSON string parser are
embedded below. -/

/-- The double-quote character. -/
def quoteC : Char := Char.ofNat 34

/-- The backslash character. -/
def backslashC : Char := Char.ofNat 92

/-- The closing-brace character. -/
def closeBraceC : Char := Char.ofNat 125

/-- A hexadecimal digit as produced by `JSON.stringify` control-character
escapes. -/
def hexDigitC (n : Nat) : Char :=
  if n < 10 then Char.ofNat (48 + n) else Char.ofNat (87 + n)

/-- The `JSON.stringify` escaping of one string character (quote, backslash
and control characters are escaped; the model uses the `\u00XX` form
for control characters other than newline, carriage return and tab). -/
def escapeJsonChar (c : Char) : List Char :=
  if c = quoteC then [backslashC, quoteC]
  else if c = backslashC then [backslashC, backslashC]
  else if c = '\n' then [backslashC, 'n']
  else if c = '\r' then [backslashC, 'r']
  else if c = '\t' then [backslashC, 't']
  else if c.toNat < 32 then
    [backslashC, 'u', '0', '0', hexDigitC (c.toNat / 16), hexDigitC (c.toNat % 16)]
  else [c]

/-- The `JSON.stringify` escaping of a whole string body. -/
def escapeJson : List Char → List Char
  | [] => []
  | c :: rest => escapeJsonChar c ++ escapeJson rest

/-- The literal character run between the opening brace and the caption
value in the serialized envelope. -/
def keyCaption : List Char := ("\x7b\"caption\":\"").toList

/-- The literal character run between the caption value and the
mimetype value in the serialized envelope. -/
def keyMimetype : List Char := (",\"mimetype\":\"").toList

/-- The envelope `JSON.stringify({ caption, mimetype })` as built by the handler for
a media message. -/
def serializeEnvelope (caption mimetype : String) : String :=
  ⟨keyCaption ++ escapeJson caption.toList ++ quoteC :: keyMimetype
    ++ escapeJson mimetype.toList ++ [quoteC, closeBraceC]⟩

/-- Decode a single-character JSON escape (the `\u` form is outside
this model and fails). -/
def unescapeChar (d : Char) : Option Char :=
  if d = quoteC then some quoteC
  else if d = backslashC then some backslashC
  else if d = '/' then some '/'
  else if d = 'n' then some '\n'
  else if d = 'r' then some '\r'
  else if d = 't' then some '\t'
  else if d = 'b' then some (Char.ofNat 8)
  else if d = 'f' then some (Char.ofNat 12)
  else none

/-- Read a JSON string body up to its closing quote, decoding escapes;
returns the decoded body and the remainder after the quote. -/
def readJsonStr : List Char → Option (List Char × List Char)
  | [] => none
  | c :: rest =>
      if c = quoteC then some ([], rest)
      else if c = backslashC then
        match rest with
        | [] => none
        | d :: rest2 =>
            (unescapeChar d).bind fun ch =>
              (readJsonStr rest2).map fun p => (ch :: p.1, p.2)
      else (readJsonStr rest).map fun p => (c :: p.1, p.2)

/-- The `JSON.parse` of a serialized `{caption, mimetype}` envelope,
specialized to the exact shape `serializeEnvelope` emits; any other
input fails (as `JSON.parse` throwing or the field being absent). -/
def parseEnvelopeFields (s : String) : Option (String × String) :=
  let l := s.toList
  if startsWithList keyCaption l then
    (readJsonStr (l.drop keyCaption.length)).bind fun p1 =>
      if startsWithList keyMimetype p1.2 then
        (readJsonStr (p1.2.drop keyMimetype.length)).bind fun p2 =>
          if p2.2 = [closeBraceC] then some (⟨p1.1⟩, ⟨p2.1⟩) else none
      else none
  else none

/-- A string free of JSON-escape-relevant characters (no quote, no
backslash, no control characters). -/
def plainJsonStr (s : String) : Bool :=
  s.toList.all (fun c => !(c = quoteC) && !(c = backslashC) && decide (32 ≤ c.toNat))

/-- The media content kinds of the handler
(`['imageMessage', 'videoMessage', 'audioMessage']`). -/
def mediaTypes : List String := ["imageMessage", "videoMessage", "audioMessage"]

/-- Membership in `mediaTypes`. -/
def isMediaType (mt : String) : Bool := mediaTypes.contains mt

/-- Outcome of normalizing one media-bearing event: the stored text,
the hosted image URL, and the cache state afterwards. -/
structure NormalizeResult where
  messageText : String
  imageUrl : Option String
  cacheAfter : MediaCache
deriving Repr

/-- The media branch of the `messages.upsert` handler.
`downloadResult` is the outcome of `downloadMediaMessage` (`none`
models the download throwing into the `catch` block), `uploadResult`
the outcome of `uploadToImgbb`.  On success the handler uploads (image
kind only), stores the serialized envelope, and caches the media with
the inline sweep; on a download failure the `catch` block stores the
same envelope but touches neither `imageUrl` nor the cache. -/
def normalizeMediaEvent (cache : MediaCache) (msgId messageType : String)
    (caption : Option String) (mimetype : String)
    (downloadResult : Option (List Nat)) (uploadResult : Option String)
    (now : Nat) : NormalizeResult :=
  match downloadResult with
  | some buf =>
      let url := if messageType = "imageMessage" then uploadResult else none
      { messageText := serializeEnvelope (caption.getD "") mimetype
        imageUrl := url
        cacheAfter := cachePut cache msgId messageType buf (caption.getD "") mimetype url now }
  | none =>
      { messageText := serializeEnvelope (caption.getD "") mimetype
        imageUrl := none
        cacheAfter := cache }

/-- What `handleDeletedMessage` sends to the deleter for a recovered
record: a media re-send (cache hit on a media record), a plain text
notice, or a handler error (the `catch` block) when parsing the stored
envelope fails. -/
inductive RecoveryAction where
  | mediaResend (imageUrl : Option String) (caption : String)
  | textNotice (text : String)
  | handlerError
deriving Repr, DecidableEq

/-- The prefix of the synthesized deleted-media notice. -/
def deletedNoticePrefix : String := "🔔 [Media Message Deleted] Type: "

/-- The synthesized notice of the no-cache-hit branch:
`Type: <message_type>, Caption: <JSON.parse(message_text).caption ||
'No caption'>`; `none` when the stored text does not parse as an
envelope (the handler would throw). -/
def syntheticDeletedNotice (messageType storedText : String) : Option String :=
  (parseEnvelopeFields storedText).map fun p =>
    deletedNoticePrefix ++ messageType ++ ", Caption: "
      ++ (if p.1 = "" then "No caption" else p.1)

/-- The branch structure of `handleDeletedMessage` after the record is
re-read: with a cache hit on a media-typed record the original media is
re-sent (an image with a hosted URL is sent by URL); otherwise a text
is sent — the raw stored text for non-media records, the synthesized
notice for media records without a cache hit. -/
def recoveryAction (row : MessageRow) (cache : MediaCache) : RecoveryAction :=
  match mapGet cache row.messageId with
  | some cm =>
      if isMediaType row.messageType then
        RecoveryAction.mediaResend
          (if row.messageType = "imageMessage" then row.imageUrl else none) cm.caption
      else RecoveryAction.textNotice row.messageText
  | none =>
      if isMediaType row.messageType then
        match syntheticDeletedNotice row.messageType row.messageText with
        | some t => RecoveryAction.textNotice t
        | none => RecoveryAction.handlerError
      else RecoveryAction.textNotice row.messageText

/-! ## Helper lemmas -/

lemma markDeletedRow_messageId (id deleter : String) (now : Nat) (r : MessageRow) :
    (markDeletedRow id deleter now r).messageId = r.messageId := by
  unfold markDeletedRow; split <;> rfl

lemma markDeleted_of_absent (db : List MessageRow) (id deleter : String) (now : Nat)
    (h : ∀ r ∈ db, r.messageId ≠ id) : markDeleted db id deleter now = db := by
  induction db with
  | nil => rfl
  | cons r rest ih =>
      have hr : r.messageId ≠ id := h r (List.mem_cons_self r rest)
      have hrest : ∀ r' ∈ rest, r'.messageId ≠ id := fun r' hm => h r' (List.mem_cons_of_mem r hm)
      simp only [markDeleted, List.map_cons] at *
      rw [ih hrest]
      simp [markDeletedRow, hr]

lemma readById_markDeleted (db : List MessageRow) (id deleter : String) (now : Nat) :
    readById (markDeleted db id deleter now) id
      = (readById db id).map (markDeletedRow id deleter now) := by
  induction db with
  | nil => rfl
  | cons r rest ih =>
      by_cases hr : r.messageId = id
      · simp [readById, markDeleted, List.filter_cons, markDeletedRow_messageId, hr] at *
      · simp [readById, markDeleted, List.filter_cons, markDeletedRow_messageId, hr] at *
        exact ih

lemma filter_id_eq_nil (db : List MessageRow) (id : String)
    (h : ∀ x ∈ db, x.messageId ≠ id) :
    db.filter (fun x => x.messageId = id) = [] := by
  induction db with
  | nil => rfl
  | cons x rest ih =>
      have hx : x.messageId ≠ id := h x (List.mem_cons_self x rest)
      have hrest : ∀ y ∈ rest, y.messageId ≠ id :=
        fun y hm => h y (List.mem_cons_of_mem x hm)
      simp [List.filter_cons, hx, ih hrest]

lemma readById_insert_fresh (db : List MessageRow) (r : MessageRow)
    (h : ∀ x ∈ db, x.messageId ≠ r.messageId) :
    readById (insertMessage db r) r.messageId = some r := by
  unfold readById insertMessage
  rw [List.filter_append, filter_id_eq_nil db r.messageId h]
  simp [List.filter_cons]

/-! ## C1 — append idempotency -/

/-- C1 counterexample: the `messages` table has no unique key on
`message_id` and the handler issues a plain `INSERT`, so appending the
same record twice leaves a different store than appending it once — the
duplicate becomes a second row for that `messageId`. -/
theorem c1_counterexample :
    (let r : MessageRow :=
      { messageId := "M1", senderJid := "s@x", remoteJid := "c@x",
        messageText := "hello", messageType := "conversation", imageUrl := none,
        autoReplySent := false, isDeleted := false, deletedAt := none, deletedBy := none }
     insertMessage (insertMessage [] r) r ≠ insertMessage [] r ∧
     countWithId (insertMessage (insertMessage [] r) r) r.messageId = 2) := by
  decide

/-- C1 (amended): the insert never conflicts (there is no uniqueness
constraint to violate, so no duplicate-key error can be raised), but it
is not idempotent — every call appends a fresh row, so a second call
with the same `messageId` increases that key's row count by one instead
of being a no-op or an update. -/
theorem c1_amended_insert_appends_row (db : List MessageRow) (r : MessageRow) :
    countWithId (insertMessage db r) r.messageId = countWithId db r.messageId + 1 := by
  simp [countWithId, insertMessage, List.filter_append, List.filter_cons]

/-! ## C7 — markDeleted then read; unknown id is a no-op -/

/-- C7: after the `UPDATE ... SET is_deleted = TRUE, deleted_at = NOW(),
deleted_by = $1 WHERE message_id = $2` of `handleDeletedMessage`, reading
a previously stored record by id yields `isDeleted = true` with non-null
`deletedAt` and `deletedBy`; and when no row carries the id, the update
matches nothing and leaves the store unchanged (raising no error). -/
theorem c7_markDeleted_read_and_noop (db : List MessageRow) (id deleter : String) (now : Nat) :
    (∀ r0, readById db id = some r0 →
      ∃ r1, readById (markDeleted db id deleter now) id = some r1
        ∧ r1.isDeleted = true ∧ r1.deletedAt = some now ∧ r1.deletedBy = some deleter) ∧
    ((∀ r ∈ db, r.messageId ≠ id) → markDeleted db id deleter now = db) := by
  constructor
  · intro r0 h0
    have hid : r0.messageId = id := by
      unfold readById at h0
      cases hf : db.filter (fun r => r.messageId = id) with
      | nil => rw [hf] at h0; simp at h0
      | cons a t =>
          rw [hf] at h0
          simp at h0
          have ha : a ∈ db.filter (fun r => r.messageId = id) := by
            rw [hf]; exact List.mem_cons_self a t
          have := List.of_mem_filter ha
          simp at this
          rw [h0] at this
          exact this
    refine ⟨markDeletedRow id deleter now r0, ?_, ?_, ?_, ?_⟩
    · rw [readById_markDeleted, h0]; rfl
    · simp [markDeletedRow, hid]
    · simp [markDeletedRow, hid]
    · simp [markDeletedRow, hid]
  · exact markDeleted_of_absent db id deleter now

/-- C7 witness at a concrete store: a stored row for `"M1"` reads back
deleted with both audit fields set, and an update for the unknown id
`"ZZ"` leaves the store unchanged. -/
theorem c7_witness :
    (∃ r1, readById
        (markDeleted
          [{ messageId := "M1", senderJid := "s@x", remoteJid := "c@x",
             messageText := "hello", messageType := "conversation", imageUrl := none,
             autoReplySent := false, isDeleted := false, deletedAt := none, deletedBy := none }]
          "M1" "d@x" 7) "M1" = some r1
      ∧ r1.isDeleted = true ∧ r1.deletedAt = some 7 ∧ r1.deletedBy = some "d@x") ∧
    (markDeleted
        [{ messageId := "M1", senderJid := "s@x", remoteJid := "c@x",
           messageText := "hello", messageType := "conversation", imageUrl := none,
           autoReplySent := false, isDeleted := false, deletedAt := none, deletedBy := none }]
        "ZZ" "d@x" 7
      = [{ messageId := "M1", senderJid := "s@x", remoteJid := "c@x",
           messageText := "hello", messageType := "conversation", imageUrl := none,
           autoReplySent := false, isDeleted := false, deletedAt := none, deletedBy := none }]) := by
  constructor
  · exact (c7_markDeleted_read_and_noop _ "M1" "d@x" 7).1
      { messageId := "M1", senderJid := "s@x", remoteJid := "c@x",
        messageText := "hello", messageType := "conversation", imageUrl := none,
        autoReplySent := false, isDeleted := false, deletedAt := none, deletedBy := none }
      (by decide)
  · exact (c7_markDeleted_read_and_noop _ "ZZ" "d@x" 7).2 (by decide)

/-! ## C8 — transactional wipe atomicity -/

/-- C8: `handleDelete(clear)` wraps the wipe in `BEGIN`/`COMMIT` with a
`ROLLBACK` on failure, so the committed table either keeps every row (a
mid-transaction failure rolls back, leaving the full row count
unchanged) or ends empty — never partially cleared. -/
theorem c8_clearAll_atomic (s : PgDb) :
    (handleDeleteClear s true).committed = s.committed ∧
    (handleDeleteClear s true).committed.length = s.committed.length ∧
    (handleDeleteClear s false).committed = [] := by
  exact ⟨rfl, rfl, rfl⟩

/-! ## C3 — cache TTL and the opportunistic sweep -/

lemma mem_of_mapGet (c : MediaCache) (k : String) (e : CacheEntry)
    (h : mapGet c k = some e) : (k, e) ∈ c := by
  induction c with
  | nil => simp [mapGet] at h
  | cons p rest ih =>
      unfold mapGet at h
      by_cases hk : p.1 = k
      · rw [if_pos hk] at h
        have hp : p = (k, e) := by
          obtain ⟨a, b⟩ := p
          simp at hk h ⊢
          exact ⟨hk, h⟩
        rw [show ((k, e) : String × CacheEntry) = p from hp.symm]
        exact List.mem_cons_self p rest
      · rw [if_neg hk] at h
        exact List.mem_cons_of_mem p (ih h)

/-- C3 counterexample: an entry inserted at time 0 survives a
sweep-triggering put at time 1 (its age is then below the TTL), and
`mediaCache.get` never checks age — so at read time `3600001` (one
millisecond past the TTL) the entry is still returned even though an
opportunistic sweep ran before the read, contradicting the claim that
such a read returns absent. -/
theorem c3_counterexample :
    ttlMs < 3600001 - 0 ∧
    mapGet (cachePut (cachePut [] "A" "imageMessage" [] "cap" "image/jpeg" none 0)
        "B" "imageMessage" [] "" "" none 1) "A"
      = some { mediaType := "imageMessage", buffer := [], caption := "cap",
               mimetype := "image/jpeg", imageUrl := none, timestamp := 0 } := by
  decide

/-- C3 (amended): eviction happens only inside the inline sweep that a
media `put` runs; immediately after any such put at time `now`, every
entry a `get` can still return has age at most the 60-minute TTL at
`now` — equivalently, an entry whose age had exceeded the TTL by the
time of the last sweep is unreadable afterwards.  (Without a further
sweep, `get` performs no age check, so an entry expiring after the last
sweep remains readable — the unamended claim fails there.) -/
theorem c3_amended_sweep_evicts_expired (c : MediaCache) (id mediaType : String)
    (buffer : List Nat) (caption mimetype : String) (imageUrl : Option String)
    (now : Nat) (k : String) (e : CacheEntry)
    (h : mapGet (cachePut c id mediaType buffer caption mimetype imageUrl now) k = some e) :
    now - e.timestamp ≤ ttlMs := by
  have hmem := mem_of_mapGet _ _ _ h
  unfold cachePut sweepCache at hmem
  have := List.mem_filter.mp hmem
  have hcond := this.2
  simp at hcond
  omega

/-- C3 witness: a concrete put at time 5 leaves the entry readable with
age `5 - 5 = 0 ≤ TTL`. -/
theorem c3_witness : 5 - 5 ≤ ttlMs :=
  c3_amended_sweep_evicts_expired [] "A" "imageMessage" [] "cap" "image/jpeg" none 5 "A"
    { mediaType := "imageMessage", buffer := [], caption := "cap",
      mimetype := "image/jpeg", imageUrl := none, timestamp := 5 }
    (by decide)

/-! ## C4 — wrapper unwrapping -/

/-- C4 counterexample: the handler unwraps with two sequential `if`s
(ephemeral first, then view-once), not a loop, so a view-once wrapper
around an ephemeral wrapper is only unwrapped one level: the result
still has the wrapper kind `ephemeralMessage`, while the specified
repeat-until-non-wrapper unwrapping reaches the inner conversation. -/
theorem c4_counterexample :
    unwrapContent (.viewOnceMessageV2 (.ephemeralMessage (.conversation "hi")))
        = WAMessageContent.ephemeralMessage (.conversation "hi") ∧
    isWrapperKind (getContentType
        (unwrapContent (.viewOnceMessageV2 (.ephemeralMessage (.conversation "hi"))))) = true ∧
    specFullUnwrap (.viewOnceMessageV2 (.ephemeralMessage (.conversation "hi")))
        = WAMessageContent.conversation "hi" := by
  decide

/-- C4 (amended): the normalizer strips at most one ephemeral wrapper
and then at most one view-once wrapper, in that fixed order; hence a
plain message, a singly wrapped message of either kind, and an
ephemeral wrapper around a view-once wrapper all resolve to the inner
non-wrapper content — but a view-once wrapper around an ephemeral
wrapper (or repeated wrapping of one kind) does not. -/
theorem c4_amended_two_step_unwrap (m : WAMessageContent)
    (h : isWrapperKind (getContentType m) = false) :
    unwrapContent m = m ∧
    unwrapContent (.ephemeralMessage m) = m ∧
    unwrapContent (.viewOnceMessageV2 m) = m ∧
    unwrapContent (.ephemeralMessage (.viewOnceMessageV2 m)) = m := by
  cases m <;>
    first
      | exact ⟨rfl, rfl, rfl, rfl⟩
      | simp [isWrapperKind, getContentType] at h

/-- C4 witness: the supported double wrapping around a concrete
conversation fully unwraps. -/
theorem c4_witness :
    unwrapContent (.ephemeralMessage (.viewOnceMessageV2 (.conversation "ok")))
      = WAMessageContent.conversation "ok" :=
  (c4_amended_two_step_unwrap (.conversation "ok") (by decide)).2.2.2

/-! ## C2 — first matching rule wins -/

lemma countP_flag_map_sendItem (items : List ResponseItem) :
    (items.map DispatchEvent.sendItem).countP (fun e => isFlagEvent e) = 0 := by
  induction items with
  | nil => rfl
  | cons i rest ih => simp [List.countP_cons, isFlagEvent, ih]

/-- C2: the rule loop evaluates rules in list order and `break`s after
the first match, so exactly the first matching rule's response sequence
is dispatched; the trace contains the `auto_reply_sent` update exactly
once, and it precedes every response send. -/
theorem c2_first_match_wins (compile : String → Option (String → Bool))
    (rules : List ReplyRule) (messageId messageText : String) (r : ReplyRule)
    (h : firstMatchingRule compile rules messageText = some r) :
    dispatchForRules compile rules messageId messageText
        = DispatchEvent.setAutoReplyFlag messageId :: r.response.map DispatchEvent.sendItem ∧
    (dispatchForRules compile rules messageId messageText).countP (fun e => isFlagEvent e) = 1 := by
  have hmain : dispatchForRules compile rules messageId messageText
      = DispatchEvent.setAutoReplyFlag messageId :: r.response.map DispatchEvent.sendItem := by
    induction rules with
    | nil => simp [firstMatchingRule] at h
    | cons r0 rest ih =>
        unfold firstMatchingRule at h
        rw [List.find?_cons] at h
        by_cases hm : ruleIsMatch compile r0 messageText
        · rw [hm] at h
          simp at h
          subst h
          simp [dispatchForRules, hm]
        · rw [Bool.not_eq_true] at hm
          rw [hm] at h
          simp only [dispatchForRules, hm, Bool.false_eq_true, if_false]
          exact ih h
  refine ⟨hmain, ?_⟩
  rw [hmain]
  simp [List.countP_cons, isFlagEvent, countP_flag_map_sendItem]

/-- C2 witness: with two rules both matching `"show menu please"`
(substring triggers `"menu"` and `"men"`), only the first rule's two
response items are dispatched, after a single flag update. -/
theorem c2_witness :
    dispatchForRules (fun _ => none)
        [{ trigger := some "menu", pattern := none,
           response := [{ rtype := "text", content := some "menu one", caption := none,
                          url := none, delayMs := none },
                        { rtype := "text", content := some "menu two", caption := none,
                          url := none, delayMs := some 500 }] },
         { trigger := some "men", pattern := none,
           response := [{ rtype := "text", content := some "other", caption := none,
                          url := none, delayMs := none }] }]
        "M1" "show menu please"
      = [DispatchEvent.setAutoReplyFlag "M1",
         DispatchEvent.sendItem { rtype := "text", content := some "menu one", caption := none,
                                  url := none, delayMs := none },
         DispatchEvent.sendItem { rtype := "text", content := some "menu two", caption := none,
                                  url := none, delayMs := some 500 }] :=
  (c2_first_match_wins (fun _ => none) _ "M1" "show menu please"
    { trigger := some "menu", pattern := none,
      response := [{ rtype := "text", content := some "menu one", caption := none,
                     url := none, delayMs := none },
                   { rtype := "text", content := some "menu two", caption := none,
                     url := none, delayMs := some 500 }] }
    (by decide)).1

/-! ## C6 — pattern authoritative, trigger only a compile-failure fallback -/

/-- C6: when a rule carries a (truthy) pattern, a successful compile
makes the regex test alone decide the match — a compiled pattern that
fails to match yields no match and never falls back to the trigger
substring — while a compile failure falls back to the case-insensitive
substring test on `trigger` without throwing. -/
theorem c6_pattern_authoritative (compile : String → Option (String → Bool))
    (rule : ReplyRule) (messageText p : String)
    (hp : rule.pattern = some p) (hne : p ≠ "") :
    (∀ tester, compile p = some tester →
        ruleIsMatch compile rule messageText = tester messageText) ∧
    (compile p = none →
        ruleIsMatch compile rule messageText = triggerFallback rule messageText) := by
  constructor
  · intro tester hc
    unfold ruleIsMatch
    rw [hp]
    simp [truthyStr, hne, hc]
  · intro hc
    unfold ruleIsMatch
    rw [hp]
    simp [truthyStr, hne, hc]

/-- C6 witness: for a rule with pattern `"["` and trigger `"menu"`, a
compiling tester that rejects everything yields no match even though
the trigger substring occurs in the text (no fallback on a failed
match), while a compile failure falls back to the substring test, which
matches. -/
theorem c6_witness :
    ruleIsMatch (fun _ => some (fun _ => false))
        { trigger := some "menu", pattern := some "[", response := [] } "show menu please"
      = false ∧
    ruleIsMatch (fun _ => none)
        { trigger := some "menu", pattern := some "[", response := [] } "show menu please"
      = triggerFallback
          { trigger := some "menu", pattern := some "[", response := [] } "show menu please" ∧
    triggerFallback
        { trigger := some "menu", pattern := some "[", response := [] } "show menu please"
      = true :=
  ⟨(c6_pattern_authoritative (fun _ => some (fun _ => false))
      { trigger := some "menu", pattern := some "[", response := [] }
      "show menu please" "[" rfl (by decide)).1 (fun _ => false) rfl,
   (c6_pattern_authoritative (fun _ => none)
      { trigger := some "menu", pattern := some "[", response := [] }
      "show menu please" "[" rfl (by decide)).2 rfl,
   by decide⟩

/-! ## C10 — status-save path requires exact trigger membership -/

/-- C10: the status-save path is entered exactly when the whole
normalized text is a (case-sensitive) member of the trigger list; a
non-member text — in particular one merely containing a trigger as a
substring — instead proceeds to the rule phase (when the eligibility
filter passes) or to command dispatch (when it starts with `'.'`). -/
theorem c10_status_exact_membership (messageText : String) (triggers : List String)
    (fromMe : Bool) (senderJid remoteJid restricted : String) :
    (pipelineRoute messageText triggers fromMe senderJid remoteJid restricted
        = PipelineRoute.statusSave
      ↔ (messageText ≠ "" ∧ messageText ∈ triggers)) ∧
    (messageText ∉ triggers → messageText ≠ "" →
      (strStartsWith messageText "." = true →
        pipelineRoute messageText triggers fromMe senderJid remoteJid restricted
          = PipelineRoute.commandPhase) ∧
      (strStartsWith messageText "." = false → fromMe = false →
        senderJid ≠ restricted → remoteJid ≠ restricted →
        pipelineRoute messageText triggers fromMe senderJid remoteJid restricted
          = PipelineRoute.rulePhase)) := by
  refine ⟨?_, ?_⟩
  · by_cases h1 : (!(messageText = "") && triggers.contains messageText) = true
    · unfold pipelineRoute
      rw [if_pos h1]
      simp at h1
      simp [h1]
    · unfold pipelineRoute
      rw [if_neg h1]
      simp at h1
      constructor
      · intro hcontra
        split at hcontra
        · exact PipelineRoute.noConfusion hcontra
        · split at hcontra
          · exact PipelineRoute.noConfusion hcontra
          · exact PipelineRoute.noConfusion hcontra
      · intro hrhs
        exact absurd hrhs.2 (h1 hrhs.1)
  · intro hmem hne
    have h1 : ¬((!(messageText = "") && triggers.contains messageText) = true) := by
      simp
      intro _
      exact hmem
    constructor
    · intro hdot
      unfold pipelineRoute
      rw [if_neg h1]
      rw [if_neg (by simp [hdot])]
      rw [if_pos (by simp [hne, hdot])]
    · intro hdot hfm hs hr
      unfold pipelineRoute
      rw [if_neg h1]
      rw [if_pos (by simp [hne, hdot, hfm, hs, hr])]

/-- C10 witness: `"oni please"` contains the trigger `"oni"` as a
substring but is not a member of the default trigger list, so it routes
to the rule phase; the exact text `"oni"` routes to the status-save
path; and `".ping"` routes to command dispatch. -/
theorem c10_witness :
    jsIncludes "oni please" "oni" = true ∧
    pipelineRoute "oni please" defaultStatusTriggers false "a@x" "b@x" "r@x"
      = PipelineRoute.rulePhase ∧
    pipelineRoute "oni" defaultStatusTriggers false "a@x" "b@x" "r@x"
      = PipelineRoute.statusSave ∧
    pipelineRoute ".ping" defaultStatusTriggers false "a@x" "b@x" "r@x"
      = PipelineRoute.commandPhase :=
  ⟨by decide,
   ((c10_status_exact_membership "oni please" defaultStatusTriggers false "a@x" "b@x" "r@x").2
      (by decide) (by decide)).2 (by decide) rfl (by decide) (by decide),
   (c10_status_exact_membership "oni" defaultStatusTriggers false "a@x" "b@x" "r@x").1.mpr
      ⟨by decide, by decide⟩,
   ((c10_status_exact_membership ".ping" defaultStatusTriggers false "a@x" "b@x" "r@x").2
      (by decide) (by decide)).1 (by decide)⟩

/-! ## C5 — placeholder substitution -/

lemma getSubstitution_of_noDollar (m bef aft : List Char) :
    ∀ rep : List Char, (∀ c ∈ rep, c ≠ '$') → getSubstitution m bef aft rep = rep := by
  intro rep
  induction rep with
  | nil => intro _; rfl
  | cons c rest ih =>
      intro h
      have hc : c ≠ '$' := h c (List.mem_cons_self c rest)
      have hrest : ∀ x ∈ rest, x ≠ '$' :=
        fun x hx => h x (List.mem_cons_of_mem c hx)
      cases rest with
      | nil => rfl
      | cons d rest2 =>
          simp only [getSubstitution, if_neg hc]
          rw [ih hrest]

lemma jsReplace_eq_literalReplace (rep : String) (h : noDollar rep = true)
    (s pat : String) : jsReplace s pat rep = literalReplace s pat rep := by
  have hrep : ∀ c ∈ rep.toList, c ≠ '$' := by
    intro c hc
    have := List.all_eq_true.mp h c hc
    simpa using this
  unfold jsReplace literalReplace
  cases hf : findSplit pat.toList s.toList with
  | none => rfl
  | some p =>
      obtain ⟨bef, aft⟩ := p
      show (⟨bef ++ getSubstitution pat.toList bef aft rep.toList ++ aft⟩ : String)
          = ⟨bef ++ rep.toList ++ aft⟩
      rw [getSubstitution_of_noDollar pat.toList bef aft rep.toList hrep]

lemma jsReplace_of_not_contains (s pat rep : String)
    (h : containsSub s pat = false) : jsReplace s pat rep = s := by
  unfold containsSub at h
  unfold jsReplace
  cases hf : findSplit pat.toList s.toList with
  | none => rfl
  | some p => rw [hf] at h; simp at h

/-- C5 counterexample: with the sender name `"$&"`, the JS replacement
pattern `$&` expands to the matched substring, so the code leaves
`"hi $\x7bpushname\x7d"` unchanged instead of producing `"hi $&"` as a
verbatim substitution (which `literalSubstituteTemplates` shows) would
— the claim fails for replacement values containing `$`. -/
theorem c5_counterexample :
    substituteTemplates "hi ${pushname}" "$&" "1" "u" = "hi ${pushname}" ∧
    literalSubstituteTemplates "hi ${pushname}" "$&" "1" "u" = "hi $&" ∧
    ("hi ${pushname}" : String) ≠ "hi $&" := by
  decide

/-- C5 (amended): the substitution is a literal (non-regex)
first-occurrence replacement — a string with no placeholder is returned
unchanged, and when the three replacement values contain no `$`
character the result equals the verbatim replacement of each
placeholder exactly once; a replacement value containing a JS dollar
pattern (`$$`, `$&`, dollar-backquote, dollar-apostrophe) is expanded
rather than inserted verbatim, so the unamended claim's tolerance of
`$` in values does not hold. -/
theorem c5_amended_literal_substitution (s pushName userId senderDpUrl : String) :
    (containsSub s phPushname = false → containsSub s phUserid = false →
      containsSub s phSenderdpurl = false →
      substituteTemplates s pushName userId senderDpUrl = s) ∧
    (noDollar pushName = true → noDollar userId = true → noDollar senderDpUrl = true →
      substituteTemplates s pushName userId senderDpUrl
        = literalSubstituteTemplates s pushName userId senderDpUrl) := by
  constructor
  · intro h1 h2 h3
    unfold substituteTemplates
    rw [jsReplace_of_not_contains s phPushname pushName h1,
        jsReplace_of_not_contains s phUserid userId h2,
        jsReplace_of_not_contains s phSenderdpurl senderDpUrl h3]
  · intro h1 h2 h3
    unfold substituteTemplates literalSubstituteTemplates
    rw [jsReplace_eq_literalReplace pushName h1,
        jsReplace_eq_literalReplace userId h2,
        jsReplace_eq_literalReplace senderDpUrl h3]

/-- C5 witness: a placeholder-free string is unchanged, and a string
with all three placeholders and `$`-free values substitutes each
exactly once, matching the verbatim replacement. -/
theorem c5_witness :
    substituteTemplates "plain text" "Alice" "123" "http://img/a.jpg" = "plain text" ∧
    substituteTemplates "hey ${pushname} you are ${userid} pic ${senderdpurl}"
        "Alice" "123" "http://img/a.jpg"
      = literalSubstituteTemplates "hey ${pushname} you are ${userid} pic ${senderdpurl}"
        "Alice" "123" "http://img/a.jpg" :=
  ⟨(c5_amended_literal_substitution "plain text" "Alice" "123" "http://img/a.jpg").1
      (by decide) (by decide) (by decide),
   (c5_amended_literal_substitution "hey ${pushname} you are ${userid} pic ${senderdpurl}"
      "Alice" "123" "http://img/a.jpg").2 (by decide) (by decide) (by decide)⟩

/-! ## C9 — download failure: envelope persisted, no cache entry, no URL -/

lemma escapeJsonChar_plain (c : Char) (h1 : c ≠ quoteC) (h2 : c ≠ backslashC)
    (h3 : 32 ≤ c.toNat) : escapeJsonChar c = [c] := by
  have hn : c ≠ '\n' := by intro e; subst e; exact absurd h3 (by decide)
  have hr : c ≠ '\r' := by intro e; subst e; exact absurd h3 (by decide)
  have ht : c ≠ '\t' := by intro e; subst e; exact absurd h3 (by decide)
  have hlt : ¬(c.toNat < 32) := by omega
  simp [escapeJsonChar, h1, h2, hn, hr, ht, hlt]

lemma escapeJson_plain (l : List Char)
    (h : ∀ c ∈ l, c ≠ quoteC ∧ c ≠ backslashC ∧ 32 ≤ c.toNat) : escapeJson l = l := by
  induction l with
  | nil => rfl
  | cons c rest ih =>
      have hc := h c (List.mem_cons_self c rest)
      have hrest : ∀ x ∈ rest, x ≠ quoteC ∧ x ≠ backslashC ∧ 32 ≤ x.toNat :=
        fun x hx => h x (List.mem_cons_of_mem c hx)
      simp only [escapeJson]
      rw [escapeJsonChar_plain c hc.1 hc.2.1 hc.2.2, ih hrest]
      rfl

lemma plainJsonStr_chars (s : String) (h : plainJsonStr s = true) :
    ∀ c ∈ s.toList, c ≠ quoteC ∧ c ≠ backslashC ∧ 32 ≤ c.toNat := by
  intro c hc
  have := List.all_eq_true.mp h c hc
  simp at this
  exact ⟨this.1.1, this.1.2, this.2⟩

lemma readJsonStr_plain (rest : List Char) :
    ∀ l : List Char, (∀ c ∈ l, c ≠ quoteC ∧ c ≠ backslashC ∧ 32 ≤ c.toNat) →
      readJsonStr (l ++ quoteC :: rest) = some (l, rest) := by
  intro l
  induction l with
  | nil =>
      intro _
      rw [List.nil_append, readJsonStr.eq_def]
      simp
  | cons c l2 ih =>
      intro h
      have hc := h c (List.mem_cons_self c l2)
      have hrest : ∀ x ∈ l2, x ≠ quoteC ∧ x ≠ backslashC ∧ 32 ≤ x.toNat :=
        fun x hx => h x (List.mem_cons_of_mem c hx)
      rw [List.cons_append, readJsonStr.eq_def]
      simp only [if_neg hc.1, if_neg hc.2.1, ih hrest]
      rfl

lemma startsWithList_append (p rest : List Char) :
    startsWithList p (p ++ rest) = true := by
  induction p with
  | nil => rfl
  | cons c ps ih => simp [startsWithList, ih]

lemma drop_len_append (p rest : List Char) : (p ++ rest).drop p.length = rest := by
  induction p with
  | nil => rfl
  | cons c ps ih => simp [ih]

lemma parseEnvelope_roundtrip_core (capL mtL : List Char)
    (hc : ∀ c ∈ capL, c ≠ quoteC ∧ c ≠ backslashC ∧ 32 ≤ c.toNat)
    (hm : ∀ c ∈ mtL, c ≠ quoteC ∧ c ≠ backslashC ∧ 32 ≤ c.toNat) :
    parseEnvelopeFields
        ⟨keyCaption ++ (capL ++ quoteC :: (keyMimetype ++ (mtL ++ [quoteC, closeBraceC])))⟩
      = some (⟨capL⟩, ⟨mtL⟩) := by
  have r1 : readJsonStr (capL ++ quoteC :: (keyMimetype ++ (mtL ++ [quoteC, closeBraceC])))
      = some (capL, keyMimetype ++ (mtL ++ [quoteC, closeBraceC])) :=
    readJsonStr_plain _ capL hc
  have r2 : readJsonStr (mtL ++ quoteC :: [closeBraceC]) = some (mtL, [closeBraceC]) :=
    readJsonStr_plain _ mtL hm
  unfold parseEnvelopeFields
  simp only [String.toList]
  rw [if_pos (startsWithList_append _ _), drop_len_append, r1]
  simp only [Option.some_bind]
  rw [if_pos (startsWithList_append _ _), drop_len_append]
  rw [show mtL ++ [quoteC, closeBraceC] = mtL ++ quoteC :: [closeBraceC] from rfl, r2]
  simp

lemma parseEnvelope_roundtrip (caption mimetype : String)
    (h1 : plainJsonStr caption = true) (h2 : plainJsonStr mimetype = true) :
    parseEnvelopeFields (serializeEnvelope caption mimetype) = some (caption, mimetype) := by
  have hc := plainJsonStr_chars caption h1
  have hm := plainJsonStr_chars mimetype h2
  have hser : serializeEnvelope caption mimetype
      = ⟨keyCaption ++ (caption.toList ++ quoteC ::
          (keyMimetype ++ (mimetype.toList ++ [quoteC, closeBraceC])))⟩ := by
    unfold serializeEnvelope
    rw [escapeJson_plain _ hc, escapeJson_plain _ hm]
    exact congrArg String.mk (by simp [List.append_assoc])
  rw [hser, parseEnvelope_roundtrip_core caption.toList mimetype.toList hc hm]
  rfl

/-- C9: when the media download of an image/video/audio message throws,
the `catch` branch still persists the serialized `(caption, mimetype)`
envelope as the message text, creates no `mediaCache` entry for the
message id, and leaves `image_url` null; a later deletion of that
message therefore misses the cache and `handleDeletedMessage` takes the
no-cache-hit branch, synthesizing the textual notice from the stored
envelope's type and caption. -/
theorem c9_download_failure_recovery
    (cache : MediaCache) (db : List MessageRow)
    (msgId sender remote mt caption mimetype : String)
    (uploadResult : Option String) (now tDel : Nat) (deleter : String)
    (hmedia : isMediaType mt = true)
    (hmiss : mapGet cache msgId = none)
    (hfresh : ∀ x ∈ db, x.messageId ≠ msgId)
    (hcap : plainJsonStr caption = true) (hmt : plainJsonStr mimetype = true) :
    (let nr := normalizeMediaEvent cache msgId mt (some caption) mimetype none uploadResult now
     let row : MessageRow :=
       { messageId := msgId, senderJid := sender, remoteJid := remote,
         messageText := nr.messageText, messageType := mt, imageUrl := nr.imageUrl,
         autoReplySent := false, isDeleted := false, deletedAt := none, deletedBy := none }
     nr.cacheAfter = cache ∧ nr.imageUrl = none ∧
     nr.messageText = serializeEnvelope caption mimetype ∧
     ((readById (markDeleted (insertMessage db row) msgId deleter tDel) msgId).map
         (fun r => recoveryAction r nr.cacheAfter))
       = some (RecoveryAction.textNotice
           (deletedNoticePrefix ++ mt ++ ", Caption: "
             ++ (if caption = "" then "No caption" else caption)))) := by
  refine ⟨rfl, rfl, rfl, ?_⟩
  show ((readById (markDeleted (insertMessage db
      { messageId := msgId, senderJid := sender, remoteJid := remote,
        messageText := serializeEnvelope caption mimetype, messageType := mt,
        imageUrl := none, autoReplySent := false, isDeleted := false,
        deletedAt := none, deletedBy := none }) msgId deleter tDel) msgId).map
      (fun r => recoveryAction r cache))
    = some (RecoveryAction.textNotice
        (deletedNoticePrefix ++ mt ++ ", Caption: "
          ++ (if caption = "" then "No caption" else caption)))
  have hrow : readById
      (markDeleted (insertMessage db
        { messageId := msgId, senderJid := sender, remoteJid := remote,
          messageText := serializeEnvelope caption mimetype, messageType := mt,
          imageUrl := none, autoReplySent := false, isDeleted := false,
          deletedAt := none, deletedBy := none }) msgId deleter tDel) msgId
      = some { messageId := msgId, senderJid := sender, remoteJid := remote,
               messageText := serializeEnvelope caption mimetype, messageType := mt,
               imageUrl := none, autoReplySent := false, isDeleted := true,
               deletedAt := some tDel, deletedBy := some deleter } := by
    rw [readById_markDeleted]
    rw [readById_insert_fresh db _ hfresh]
    simp [markDeletedRow]
  rw [hrow]
  simp only [Option.map_some']
  unfold recoveryAction
  rw [hmiss]
  simp only [hmedia, if_pos]
  unfold syntheticDeletedNotice
  rw [parseEnvelope_roundtrip caption mimetype hcap hmt]
  rfl

/-- C9 witness: a concrete image message `"M1"` with caption `"hi"`
whose download fails is stored as the envelope, cached nowhere, has no
hosted URL, and its deletion produces the synthesized notice. -/
theorem c9_witness :
    (let nr := normalizeMediaEvent [] "M1" "imageMessage" (some "hi") "image/jpeg" none none 0
     let row : MessageRow :=
       { messageId := "M1", senderJid := "s@x", remoteJid := "c@x",
         messageText := nr.messageText, messageType := "imageMessage", imageUrl := nr.imageUrl,
         autoReplySent := false, isDeleted := false, deletedAt := none, deletedBy := none }
     nr.cacheAfter = [] ∧ nr.imageUrl = none ∧
     nr.messageText = serializeEnvelope "hi" "image/jpeg" ∧
     ((readById (markDeleted (insertMessage [] row) "M1" "d@x" 9) "M1").map
         (fun r => recoveryAction r nr.cacheAfter))
       = some (RecoveryAction.textNotice
           (deletedNoticePrefix ++ "imageMessage" ++ ", Caption: "
             ++ (if ("hi" : String) = "" then "No caption" else "hi")))) :=
  c9_download_failure_recovery [] [] "M1" "s@x" "c@x" "imageMessage" "hi" "image/jpeg"
    none 0 9 "d@x" (by decide) rfl (by simp) (by decide) (by decide)

end TadashiMD
